import Mathlib

/-!
Shallow embedding of the audio decode/playback layer of webAO
(src/webAO/packets/handlers/handleRMC.ts): the Opus decode cache
(decodeOpusFile), the PolyfillAudioElement state machine, the
wrapAudioElement proxy routing, and the handleRMC remote-offset
synchronizer.  Times and volumes are modelled as rationals; the
JavaScript Map is modelled as an insertion-ordered association list
(head = oldest entry), matching Map iteration order.
-/

namespace WebAO

/-- Decoded PCM buffers are identified abstractly; the cache stores them
by identity, so a numeric id suffices for the cache model. -/
abbrev Buffer := Nat

/-- State threaded through decodeOpusFile calls: the module-level
audioBufferCache (insertion-ordered, head oldest, as a JS Map iterates),
plus instrumentation logs recording each url fetched and each url passed
to the decode engine (dec.decodeFile). -/
structure DecodeState where
  cache : List (String × Buffer)
  fetchLog : List String
  decodeLog : List String
deriving DecidableEq

/-- Outcome the environment (network + decode engine) produces for a url:
a transport failure, a decode yielding zero samples, or a decoded buffer. -/
inductive FetchDecodeResult
  | fetchError
  | zeroSamples
  | ok (b : Buffer)
deriving DecidableEq

/-- Lookup in the insertion-ordered map: audioBufferCache.has / .get. -/
def cacheFind : List (String × Buffer) → String → Option Buffer
  | [], _ => none
  | (k, v) :: rest, url => if k = url then some v else cacheFind rest url

/-- JS Map.set semantics: an existing key is updated in place (keeping its
insertion position); a new key is appended at the end. -/
def jsMapSet : List (String × Buffer) → String → Buffer → List (String × Buffer)
  | [], k, v => [(k, v)]
  | (k1, v1) :: rest, k, v =>
      if k1 = k then (k1, v) :: rest else (k1, v1) :: jsMapSet rest k v

/-- Eviction step of decodeOpusFile (lines 141-146): when the cache size
exceeds 100, `audioBufferCache.keys().next().value` (the oldest key) is
deleted, but only when it is truthy — `if (firstKey)` skips an
empty-string key. -/
def cacheEvict (c : List (String × Buffer)) : List (String × Buffer) :=
  if c.length > 100 then
    match c with
    | [] => c
    | (k, _) :: rest => if k = "" then c else rest
  else c

/-- decodeOpusFile (handleRMC.ts lines 104-153): cache lookup by url; on a
miss, fetch the bytes (logged), decode them (logged), fail on a transport
error or on zero samples, otherwise evict-then-insert into the cache and
return the buffer.  The environment `env` fixes what the network and the
decode engine produce for each url. -/
def decodeOpusFile (env : String → FetchDecodeResult) (s : DecodeState)
    (url : String) : Except String Buffer × DecodeState :=
  match cacheFind s.cache url with
  | some b => (Except.ok b, s)
  | none =>
    let s1 : DecodeState := { s with fetchLog := s.fetchLog ++ [url] }
    match env url with
    | FetchDecodeResult.fetchError => (Except.error "fetch failed", s1)
    | FetchDecodeResult.zeroSamples =>
        (Except.error "no samples",
         { s1 with decodeLog := s1.decodeLog ++ [url] })
    | FetchDecodeResult.ok b =>
        let s2 : DecodeState := { s1 with decodeLog := s1.decodeLog ++ [url] }
        (Except.ok b, { s2 with cache := jsMapSet (cacheEvict s2.cache) url b })

/-- Sequential decode calls, keeping only the evolving state. -/
def seqDecode (env : String → FetchDecodeResult) (s : DecodeState)
    (urls : List String) : DecodeState :=
  urls.foldl (fun st u => (decodeOpusFile env st u).2) s

/-- The empty initial decode state. -/
def initDecodeState : DecodeState := { cache := [], fetchLog := [], decodeLog := [] }

/-- Well-formedness preserved by decodeOpusFile: at most 101 cache entries
and no empty-string key. -/
def cacheWF (c : List (String × Buffer)) : Prop :=
  c.length ≤ 101 ∧ ∀ p ∈ c, p.1 ≠ ""

theorem jsMapSet_length_le (c : List (String × Buffer)) (k : String) (v : Buffer) :
    (jsMapSet c k v).length ≤ c.length + 1 := by
  induction c with
  | nil => simp [jsMapSet]
  | cons hd tl ih =>
      simp only [jsMapSet]
      split
      · simp
      · simp only [List.length_cons]
        exact Nat.succ_le_succ ih

theorem jsMapSet_keys (c : List (String × Buffer)) (k : String) (v : Buffer)
    (p : String × Buffer) (hp : p ∈ jsMapSet c k v) :
    p.1 = k ∨ p ∈ c := by
  induction c with
  | nil => simp_all [jsMapSet]
  | cons hd tl ih =>
      simp only [jsMapSet] at hp
      split at hp
      · rcases List.mem_cons.1 hp with h | h
        · subst h; rename_i heq; left; simp [heq]
        · right; exact List.mem_cons_of_mem _ h
      · rcases List.mem_cons.1 hp with h | h
        · right; simp [h]
        · rcases ih h with h1 | h1
          · left; exact h1
          · right; exact List.mem_cons_of_mem _ h1

theorem jsMapSet_find_self (c : List (String × Buffer)) (k : String) (v : Buffer) :
    cacheFind (jsMapSet c k v) k = some v := by
  induction c with
  | nil => simp [jsMapSet, cacheFind]
  | cons hd tl ih =>
      simp only [jsMapSet]
      split
      · rename_i heq; simp [cacheFind, heq]
      · rename_i hne; simp [cacheFind, hne, ih]

theorem decodeOpusFile_preserves_WF (env : String → FetchDecodeResult)
    (s : DecodeState) (url : String) (hw : cacheWF s.cache) (hu : url ≠ "") :
    cacheWF (decodeOpusFile env s url).2.cache := by
  obtain ⟨hlen, hkeys⟩ := hw
  unfold decodeOpusFile
  cases hfind : cacheFind s.cache url with
  | some b => exact ⟨hlen, hkeys⟩
  | none =>
      cases henv : env url with
      | fetchError => exact ⟨hlen, hkeys⟩
      | zeroSamples => exact ⟨hlen, hkeys⟩
      | ok b =>
          simp only
          constructor
          · -- length bound: eviction guarantees at most 100 entries pre-insert
            have hev : (cacheEvict s.cache).length ≤ 100 := by
              unfold cacheEvict
              split
              · rename_i hgt
                cases hc : s.cache with
                | nil => rw [hc] at hgt; simp at hgt
                | cons hd tl =>
                    have hne : hd.1 ≠ "" := hkeys hd (by simp [hc])
                    simp only
                    rw [if_neg hne]
                    have : tl.length + 1 ≤ 101 := by
                      rw [hc] at hlen; simpa using hlen
                    omega
              · rename_i hle; omega
            calc (jsMapSet (cacheEvict s.cache) url b).length
                ≤ (cacheEvict s.cache).length + 1 := jsMapSet_length_le _ _ _
              _ ≤ 101 := by omega
          · -- every key is still nonempty
            intro p hp
            rcases jsMapSet_keys _ _ _ _ hp with h | h
            · rw [h]; exact hu
            · apply hkeys
              unfold cacheEvict at h
              revert h
              split
              · cases hc : s.cache with
                | nil => intro h; simp [hc] at h
                | cons hd tl =>
                    simp only
                    split
                    · intro h; exact h
                    · intro h; simp [hc, h]
              · intro h; exact h

theorem seqDecode_WF (env : String → FetchDecodeResult) (urls : List String)
    (s : DecodeState) (hw : cacheWF s.cache) (hu : ∀ u ∈ urls, u ≠ "") :
    cacheWF (seqDecode env s urls).cache := by
  induction urls generalizing s with
  | nil => simpa [seqDecode]
  | cons hd tl ih =>
      have h1 : cacheWF (decodeOpusFile env s hd).2.cache :=
        decodeOpusFile_preserves_WF env s hd hw (hu hd (by simp))
      have := ih (decodeOpusFile env s hd).2 h1 (fun u hu2 => hu u (by simp [hu2]))
      simpa [seqDecode] using this

/-- The 101 distinct urls "0" .. "100". -/
def urls101 : List String := (List.range 101).map (fun i => toString i)

/-- The 102 distinct urls "0" .. "101". -/
def urls102 : List String := (List.range 102).map (fun i => toString i)

/-- An environment in which every url decodes successfully to buffer 0. -/
def envOk : String → FetchDecodeResult := fun _ => FetchDecodeResult.ok 0

/-- An environment in which every url decodes successfully to buffer 7. -/
def envOk7 : String → FetchDecodeResult := fun _ => FetchDecodeResult.ok 7

/-- The decode state after one successful decode of "a.opus" under envOk7. -/
def stateAfterA : DecodeState :=
  { cache := [("a.opus", 7)], fetchLog := ["a.opus"], decodeLog := ["a.opus"] }

end WebAO

open WebAO

set_option maxRecDepth 80000 in
/-- C1 counterexample: after 101 sequential decode calls with the distinct
uncached uris "0" .. "100", the cache holds 101 entries (not at most 100)
and the first-inserted key "0" is still retrievable — inserting the 101st
distinct uri did not evict the oldest key, because the source only evicts
when `audioBufferCache.size > 100` held before the insertion. -/
theorem C1_counterexample :
    (seqDecode envOk initDecodeState urls101).cache.length = 101 ∧
    cacheFind (seqDecode envOk initDecodeState urls101).cache "0" = some 0 := by
  decide

set_option maxRecDepth 80000 in
/-- C1 amended: the decode cache never holds more than 101 entries (for
sequences of calls whose uris are nonempty strings, since the eviction
step skips an empty-string oldest key); it is the 102nd distinct uri whose
insertion evicts exactly the first-inserted key, after which the 2nd
through 102nd keys remain retrievable and the cache again holds 101
entries. -/
theorem C1_cache_bound_and_eviction :
    (∀ (env : String → FetchDecodeResult) (urls : List String) (s : DecodeState),
        cacheWF s.cache → (∀ u ∈ urls, u ≠ "") →
        (seqDecode env s urls).cache.length ≤ 101) ∧
    (cacheFind (seqDecode envOk initDecodeState urls102).cache "0" = none ∧
     (seqDecode envOk initDecodeState urls102).cache.length = 101 ∧
     ((List.range 101).all (fun i =>
        (cacheFind (seqDecode envOk initDecodeState urls102).cache
          (toString (i + 1))).isSome)) = true) := by
  constructor
  · intro env urls s hw hu
    exact (seqDecode_WF env urls s hw hu).1
  · decide

/-- Witness for C1_cache_bound_and_eviction: the universally quantified
bound applied at a concrete environment, url list and starting state. -/
theorem C1_cache_bound_witness :
    (seqDecode envOk initDecodeState ["a.opus"]).cache.length ≤ 101 :=
  C1_cache_bound_and_eviction.1 envOk ["a.opus"] initDecodeState
    (by exact ⟨by simp [initDecodeState], by simp [initDecodeState]⟩) (by decide)

/-- C8: once decode(uri) has succeeded, an immediately following sequential
decode(uri) call returns the same cached buffer with the state unchanged —
in particular the decode-engine log and the fetch log gain no new entry,
so the engine is invoked and the bytes are fetched at most once per uri
across the two calls. -/
theorem C8_second_decode_is_cache_hit
    (env : String → FetchDecodeResult) (s s' : DecodeState) (url : String)
    (b : Buffer) (h : decodeOpusFile env s url = (Except.ok b, s')) :
    decodeOpusFile env s' url = (Except.ok b, s') ∧
    (decodeOpusFile env s' url).2.decodeLog = s'.decodeLog ∧
    (decodeOpusFile env s' url).2.fetchLog = s'.fetchLog := by
  have hmain : decodeOpusFile env s' url = (Except.ok b, s') := by
    unfold decodeOpusFile at h ⊢
    cases hfind : cacheFind s.cache url with
    | some b0 =>
        rw [hfind] at h
        simp only [Prod.mk.injEq, Except.ok.injEq] at h
        obtain ⟨hb, hs⟩ := h
        subst hb; subst hs
        rw [hfind]
    | none =>
        rw [hfind] at h
        cases henv : env url with
        | fetchError => rw [henv] at h; simp at h
        | zeroSamples => rw [henv] at h; simp at h
        | ok b0 =>
            rw [henv] at h
            simp only [Prod.mk.injEq, Except.ok.injEq] at h
            obtain ⟨hb, hs⟩ := h
            subst hb
            rw [← hs]
            simp only [jsMapSet_find_self]
  exact ⟨hmain, by rw [hmain], by rw [hmain]⟩

/-- Witness for C8_second_decode_is_cache_hit: concrete run in which
"a.opus" is decoded once and the second call is a pure cache hit. -/
theorem C8_second_decode_witness :
    decodeOpusFile envOk7 stateAfterA "a.opus" = (Except.ok 7, stateAfterA) :=
  (C8_second_decode_is_cache_hit envOk7 initDecodeState stateAfterA "a.opus" 7
    rfl).1

namespace WebAO

/-- Kind of value stored in a music-pool slot: a bare native
HTMLAudioElement, the Proxy facade produced by wrapAudioElement (whose
target is the native element), or a bare PolyfillAudioElement. -/
inductive HandleKind
  | nativeElement
  | proxyFacade
  | barePolyfill
deriving DecidableEq

/-- Observable state of one music channel as handleRMC manipulates it. -/
structure Channel where
  kind : HandleKind
  src : String
  paused : Bool
  currentTime : ℚ
deriving DecidableEq

/-- The JavaScript `instanceof HTMLAudioElement` test at handleRMC.ts
line 21.  `instanceof` consults the object's internal GetPrototypeOf; a
Proxy whose handler declares no getPrototypeOf trap (wrapAudioElement
declares only get and set) forwards it to its target, the native element,
so the facade passes the test.  Only a bare PolyfillAudioElement fails. -/
def instanceofHTMLAudioElement : HandleKind → Bool
  | HandleKind.nativeElement => true
  | HandleKind.proxyFacade => true
  | HandleKind.barePolyfill => false

/-- JavaScript `value.endsWith(suffix)`: a suffix test on the character
sequence of the string. -/
def jsEndsWith (s suffix : String) : Bool := suffix.data.isSuffixOf s.data

/-- Whether `music.addEventListener` resolves to a callable function.  On
the wrapAudioElement Proxy with a source ending in ".opus", the get trap
(handleRMC.ts lines 405-424) reads the property from the
PolyfillAudioElement, which defines no addEventListener, so the lookup
yields undefined and the call site throws a TypeError. -/
def hasAddEventListener (c : Channel) : Bool :=
  match c.kind with
  | HandleKind.nativeElement => true
  | HandleKind.proxyFacade => !(jsEndsWith c.src ".opus")
  | HandleKind.barePolyfill => false

/-- Result of `Number(x)` / `parseFloat(x)` on a packet argument: NaN or a
numeric value (floats modelled as rationals). -/
inductive JsParse
  | nan
  | num (q : ℚ)
deriving DecidableEq

/-- `parsed || 0`: NaN (and 0 itself) collapse to 0. -/
def jsOr0 : JsParse → ℚ
  | JsParse.nan => 0
  | JsParse.num q => q

/-- The wire arguments handleRMC consumes: args[1] through parseFloat and
args[2] through Number. -/
structure RmcArgs where
  offset : JsParse
  chan : JsParse
deriving DecidableEq

/-- Array indexing music[q]: defined exactly when q is a nonnegative
integer below the pool length (fractional or negative indices read a
missing property, yielding undefined). -/
def chanIdx (q : ℚ) : Option Nat :=
  if 0 ≤ q ∧ q.den = 1 then some q.num.toNat else none

/-- Which readiness mechanism the handler installs before seeking. -/
inductive ReadyMech
  | loadedMetadataEvent
  | delay100ms
deriving DecidableEq

/-- Synchronous outcome of handleRMC: silent return (no channel), a
scheduled readiness wait carrying loadStartTime and the parsed target
offset, or a thrown TypeError (addEventListener resolved to undefined). -/
inductive RmcOutcome
  | noop
  | scheduled (chanIdx : Nat) (mech : ReadyMech) (t0 totime : ℚ)
  | typeError (chanIdx : Nat)
deriving DecidableEq

/-- `music.pause()` as invoked at handleRMC.ts line 14: the native element
pauses; the facade with an opus source routes to PolyfillAudioElement.pause
(a no-op when already paused); either way the channel is paused after. -/
def pauseChannel (c : Channel) : Channel := { c with paused := true }

/-- Synchronous part of handleRMC (handleRMC.ts lines 7-37): coerce the
channel argument (`Number(args[2]) || 0`), look the channel up in the
music pool (silent return when absent), pause it, parse the offset, and
install the readiness mechanism chosen by the `instanceof` test. -/
def handleRMC (pool : List Channel) (args : RmcArgs) (now : ℚ) :
    List Channel × RmcOutcome :=
  match chanIdx (jsOr0 args.chan) with
  | none => (pool, RmcOutcome.noop)
  | some i =>
    match pool[i]? with
    | none => (pool, RmcOutcome.noop)
    | some music =>
      let pool1 := pool.set i (pauseChannel music)
      let totime := jsOr0 args.offset
      if instanceofHTMLAudioElement music.kind then
        if hasAddEventListener music then
          (pool1, RmcOutcome.scheduled i ReadyMech.loadedMetadataEvent now totime)
        else (pool1, RmcOutcome.typeError i)
      else (pool1, RmcOutcome.scheduled i ReadyMech.delay100ms now totime)

/-- The readiness callback (handleRMC.ts lines 22-27 and 31-35): when the
channel signals readiness at wall-clock time tReady, compute
`drift = tReady - loadStartTime`, write `currentTime = totime + drift`,
and call play() (modelled as the channel leaving the paused state). -/
def rmcOnReady (music : Channel) (t0 totime tReady : ℚ) : Channel :=
  { music with currentTime := totime + (tReady - t0), paused := false }

end WebAO

/-- C2: whenever handleRMC schedules a readiness wait, the recorded
loadStartTime is the wall-clock time at which the command was received
and the recorded offset is the parsed args[1]; when the channel signals
readiness at time tReady, the callback writes
currentTime = totime + (tReady - loadStartTime) — the target offset plus
the elapsed wall-clock drift — and then calls play(). -/
theorem C2_remote_offset_drift (pool pool1 : List Channel) (args : RmcArgs)
    (now s totime : ℚ) (i : Nat) (mech : ReadyMech)
    (h : handleRMC pool args now = (pool1, RmcOutcome.scheduled i mech s totime)) :
    s = now ∧ totime = jsOr0 args.offset ∧
    ∀ (music : Channel) (tReady : ℚ),
      (rmcOnReady music s totime tReady).currentTime = totime + (tReady - now) ∧
      (rmcOnReady music s totime tReady).paused = false := by
  have hs : s = now ∧ totime = jsOr0 args.offset := by
    unfold handleRMC at h
    split at h
    · simp at h
    · split at h
      · simp at h
      · simp only at h
        split at h
        · split at h
          · simp only [Prod.mk.injEq, RmcOutcome.scheduled.injEq] at h
            exact ⟨h.2.2.2.1.symm, h.2.2.2.2.symm⟩
          · simp at h
        · simp only [Prod.mk.injEq, RmcOutcome.scheduled.injEq] at h
          exact ⟨h.2.2.2.1.symm, h.2.2.2.2.symm⟩
  refine ⟨hs.1, hs.2, ?_⟩
  intro music tReady
  rw [hs.1]
  exact ⟨rfl, rfl⟩

/-- Witness for C2_remote_offset_drift: a native channel at index 0,
target offset 5.0 seconds, command received at T0 = 20, readiness firing
at T0 + 0.3 seconds: the currentTime written is exactly 5.3. -/
theorem C2_remote_offset_witness :
    (rmcOnReady
        (Channel.mk HandleKind.nativeElement "song.mp3" true 0)
        20 5 (20 + 3/10)).currentTime = 53/10 := by
  have h := C2_remote_offset_drift
    [Channel.mk HandleKind.nativeElement "song.mp3" true 0]
    [Channel.mk HandleKind.nativeElement "song.mp3" true 0]
    (RmcArgs.mk (JsParse.num 5) (JsParse.num 0)) 20 20 5 0
    ReadyMech.loadedMetadataEvent (by decide)
  have h2 := (h.2.2 (Channel.mk HandleKind.nativeElement "song.mp3" true 0)
    (20 + 3/10)).1
  rw [h2]
  norm_num

/-- C3 evaluated at the failing input: a music-pool channel holding the
wrapAudioElement facade with an ".opus" source (the configuration that
dispatches to the software variant).  The facade passes the
`instanceof HTMLAudioElement` test (the Proxy forwards GetPrototypeOf to
its native target), so handleRMC takes the native branch and calls
`music.addEventListener`, which the get trap resolves on the
PolyfillAudioElement to undefined — a TypeError, not the 100ms-delay
readiness path the (dead) else branch would provide. -/
theorem C3_facade_takes_native_branch :
    instanceofHTMLAudioElement HandleKind.proxyFacade = true ∧
    handleRMC [Channel.mk HandleKind.proxyFacade "song.opus" false 0]
        (RmcArgs.mk (JsParse.num 5) (JsParse.num 0)) 0
      = ([Channel.mk HandleKind.proxyFacade "song.opus" true 0],
         RmcOutcome.typeError 0) := by
  decide

/-- C5 counterexample: an invalid (unparsable) channel argument is NOT a
silent no-op when channel 0 exists — `Number(args[2]) || 0` coerces NaN
to 0, so the command pauses channel 0 and schedules a seek on it,
changing its state. -/
theorem C5_counterexample :
    (handleRMC [Channel.mk HandleKind.nativeElement "song.mp3" false 2]
        (RmcArgs.mk (JsParse.num 5) JsParse.nan) 0)
      = ([Channel.mk HandleKind.nativeElement "song.mp3" true 2],
         RmcOutcome.scheduled 0 ReadyMech.loadedMetadataEvent 0 5) ∧
    (handleRMC [Channel.mk HandleKind.nativeElement "song.mp3" false 2]
        (RmcArgs.mk (JsParse.num 5) JsParse.nan) 0).1
      ≠ [Channel.mk HandleKind.nativeElement "song.mp3" false 2] := by
  decide

/-- C5 amended: a remote offset command whose coerced channel index
(`Number(args[2]) || 0`, so an unparsable or missing argument targets
channel 0) has no corresponding channel in the music pool produces no
state change on any channel and throws no error — handleRMC returns the
pool unchanged with a silent no-op outcome. -/
theorem C5_missing_channel_noop (pool : List Channel) (args : RmcArgs)
    (now : ℚ)
    (h : (chanIdx (jsOr0 args.chan)).bind (fun i => pool[i]?) = none) :
    handleRMC pool args now = (pool, RmcOutcome.noop) := by
  unfold handleRMC
  cases hidx : chanIdx (jsOr0 args.chan) with
  | none => simp
  | some i =>
      have hp : pool[i]? = none := by
        rw [hidx] at h; simpa using h
      simp [hp]

/-- Witness for C5_missing_channel_noop: channel argument 3 on an empty
music pool — no channel, no state change, no error. -/
theorem C5_missing_channel_witness :
    handleRMC [] (RmcArgs.mk (JsParse.num 5) (JsParse.num 3)) 0
      = ([], RmcOutcome.noop) :=
  C5_missing_channel_noop [] (RmcArgs.mk (JsParse.num 5) (JsParse.num 3)) 0
    (by decide)

namespace WebAO

/-- A decoded audio buffer as the polyfill element sees it: its duration
in seconds. -/
structure AudioBuf where
  dur : ℚ
deriving DecidableEq

/-- State of the AudioBufferSourceNode currently referenced by
`this.sourceNode`: still rendering (with the node's own loop flag), or
already stopped/ended.  Per the Web Audio API an ended event is dispatched
when a started node stops for any reason — reaching the end of a
non-looping buffer or an explicit stop() call — and at most once. -/
inductive NodeState
  | playing (loopFlag : Bool)
  | finished
deriving DecidableEq

/-- Notifications the element delivers through its handler hooks. -/
inductive Notif
  | loadeddata
  | errorEv
  | playEv
  | pauseEv
  | endedEv
deriving DecidableEq

/-- Fields of PolyfillAudioElement (handleRMC.ts lines 159-180).
`currentTimeStored` is the backing _currentTime; `inflight` records the
url captured by the in-flight loadAudio call awaiting decodeOpusFile. -/
structure Poly where
  src : String
  volume : ℚ
  loop : Bool
  paused : Bool
  currentTimeStored : ℚ
  duration : ℚ
  sourceNode : Option NodeState
  startTime : ℚ
  audioBuffer : Option AudioBuf
  isLoading : Bool
  loadError : Bool
  inflight : Option String
deriving DecidableEq

/-- The element together with its host-side pending work: queued onended
callback runs (the event loop) and the notifications delivered so far. -/
structure PolyM where
  e : Poly
  pendingEnded : List Unit
  notifs : List Notif
deriving DecidableEq

/-- A freshly constructed PolyfillAudioElement. -/
def initPoly : Poly :=
  { src := "", volume := 1, loop := false, paused := true,
    currentTimeStored := 0, duration := 0, sourceNode := none,
    startTime := 0, audioBuffer := none, isLoading := false,
    loadError := false, inflight := none }

/-- A fresh element with no pending host work. -/
def initPolyM : PolyM := { e := initPoly, pendingEnded := [], notifs := [] }

/-- Result the decode pipeline produces for a url when the awaited
decodeOpusFile settles: a buffer, or a failure (fetch error or zero
samples decoded). -/
inductive LoadResult
  | success (b : AudioBuf)
  | failure
deriving DecidableEq

/-- private stop() (handleRMC.ts lines 347-357): stop and disconnect the
current source node, swallowing errors, and drop the reference.  Stopping
a node that is still rendering makes the host dispatch its ended event
(queued here); a node that already ended dispatches nothing further. -/
def stopNode (m : PolyM) : PolyM :=
  match m.e.sourceNode with
  | some (NodeState.playing _) =>
      { m with e := { m.e with sourceNode := none },
               pendingEnded := m.pendingEnded ++ [()] }
  | some NodeState.finished => { m with e := { m.e with sourceNode := none } }
  | none => m

/-- private playFromOffset(offset) (handleRMC.ts lines 272-296): with a
buffer present, create a source node carrying the element's loop flag,
record startTime = now - offset, start it, and clear paused. -/
def playFromOffset (offset now : ℚ) (m : PolyM) : PolyM :=
  match m.e.audioBuffer with
  | none => m
  | some _ =>
      { m with e := { m.e with sourceNode := some (NodeState.playing m.e.loop),
                               startTime := now - offset, paused := false } }

/-- The sourceNode.onended closure (handleRMC.ts lines 283-291), run when
the host delivers a queued ended event: when the element's loop flag is
clear, mark it paused, reset the stored currentTime to 0 and fire the
"ended" notification; when loop is set, do nothing. -/
def deliverEnded (m : PolyM) : PolyM :=
  match m.pendingEnded with
  | [] => m
  | _ :: rest =>
      let m1 : PolyM := { m with pendingEnded := rest }
      if m1.e.loop then m1
      else { m1 with e := { m1.e with paused := true, currentTimeStored := 0 },
                     notifs := m1.notifs ++ [Notif.endedEv] }

/-- Host-side natural completion: a started, non-looping node reaches the
end of its buffer, stops, and its ended event is queued.  A looping node
never completes naturally. -/
def naturalEnd (m : PolyM) : PolyM :=
  match m.e.sourceNode with
  | some (NodeState.playing false) =>
      { m with e := { m.e with sourceNode := some NodeState.finished },
               pendingEnded := m.pendingEnded ++ [()] }
  | _ => m

/-- get currentTime (handleRMC.ts lines 230-235): while playing with a
positive start reference, derived from the host clock; otherwise the
stored value. -/
def currentTimeGet (now : ℚ) (e : Poly) : ℚ :=
  if e.paused = false ∧ 0 < e.startTime then now - e.startTime
  else e.currentTimeStored

/-- set currentTime (handleRMC.ts lines 237-243): store the value; when
playing with a buffer, stop and restart playback at the new offset. -/
def setCurrentTime (v now : ℚ) (m : PolyM) : PolyM :=
  let m1 : PolyM := { m with e := { m.e with currentTimeStored := v } }
  if m1.e.paused = false ∧ m1.e.audioBuffer.isSome then
    playFromOffset v now (stopNode m1)
  else m1

/-- set volume (handleRMC.ts lines 208-213): clamp into [0,1] with
Math.max(0, Math.min(1, value)) and apply to the gain node at once. -/
def setVolume (v : ℚ) (e : Poly) : Poly :=
  { e with volume := max 0 (min 1 v) }

/-- set loop (handleRMC.ts lines 219-224): store the flag and mirror it
onto a live source node. -/
def setLoop (v : Bool) (m : PolyM) : PolyM :=
  let e1 : Poly := { m.e with loop := v }
  match e1.sourceNode with
  | some (NodeState.playing _) =>
      { m with e := { e1 with sourceNode := some (NodeState.playing v) } }
  | _ => { m with e := e1 }

/-- Entry of private loadAudio(url) (handleRMC.ts lines 249-251): a call
while a load is already in flight returns at once; otherwise the load
starts, capturing the requested url for the awaited decodeOpusFile. -/
def loadBegin (url : String) (m : PolyM) : PolyM :=
  if m.e.isLoading then m
  else { m with e := { m.e with isLoading := true, inflight := some url } }

/-- Resumption of loadAudio (handleRMC.ts lines 253-269) when the awaited
decodeOpusFile for the captured url settles: on success install the
buffer, set duration from it and fire "loadeddata"; on failure record the
error and fire "error".  Both outcomes are absorbed here — nothing is
thrown to the caller. -/
def loadFinish (env : String → LoadResult) (m : PolyM) : PolyM :=
  match m.e.inflight with
  | none => m
  | some url =>
      match env url with
      | LoadResult.success b =>
          { m with e := { m.e with audioBuffer := some b, duration := b.dur,
                                   isLoading := false, inflight := none },
                   notifs := m.notifs ++ [Notif.loadeddata] }
      | LoadResult.failure =>
          { m with e := { m.e with isLoading := false, loadError := true,
                                   inflight := none },
                   notifs := m.notifs ++ [Notif.errorEv] }

/-- set src (handleRMC.ts lines 192-202): store the value, clear the
cached error, buffer, duration and stored currentTime, and trigger a load
when the value is truthy and ends in ".opus". -/
def setSrc (v : String) (m : PolyM) : PolyM :=
  let m1 : PolyM :=
    { m with e := { m.e with src := v, loadError := false, audioBuffer := none,
                             duration := 0, currentTimeStored := 0 } }
  if v ≠ "" ∧ jsEndsWith v ".opus" then loadBegin v m1 else m1

/-- async play() (handleRMC.ts lines 298-333) at the point its awaits have
settled (context resumed, loading poll finished, so isLoading is false):
without a buffer, fire "error" and return without touching anything else;
with a buffer, stop any current playback, restart from the stored
currentTime and fire "play". -/
def playAfterWait (now : ℚ) (m : PolyM) : PolyM :=
  if m.e.isLoading then m
  else
    match m.e.audioBuffer with
    | none => { m with notifs := m.notifs ++ [Notif.errorEv] }
    | some _ =>
        let m1 := playFromOffset m.e.currentTimeStored now (stopNode m)
        { m1 with notifs := m1.notifs ++ [Notif.playEv] }

/-- pause() (handleRMC.ts lines 335-345): only when a node exists and the
element is not already paused — capture the live currentTime into the
store, stop the node, mark paused and fire "pause". -/
def pauseElt (now : ℚ) (m : PolyM) : PolyM :=
  if m.e.sourceNode.isSome ∧ m.e.paused = false then
    let t := currentTimeGet now m.e
    let m1 : PolyM := { m with e := { m.e with currentTimeStored := t } }
    let m2 := stopNode m1
    { m2 with e := { m2.e with paused := true },
              notifs := m2.notifs ++ [Notif.pauseEv] }
  else m

/-- load() (handleRMC.ts lines 359-363): re-trigger loadAudio on the
current source when it is nonempty. -/
def loadElt (m : PolyM) : PolyM :=
  if m.e.src ≠ "" then loadBegin m.e.src m else m

end WebAO

namespace WebAO

/-- A load environment where every url fails to produce a buffer. -/
def envFail : String → LoadResult := fun _ => LoadResult.failure

/-- A load environment where every url decodes to a 4-second buffer. -/
def envBuf4 : String → LoadResult := fun _ => LoadResult.success (AudioBuf.mk 4)

/-- Trace for C4: a non-looping element loads "a.opus" (10s buffer),
play() starts it at host time 2, pause() is called at host time 5. -/
def c4AfterPause : PolyM :=
  pauseElt 5 (playAfterWait 2
    (loadFinish (fun _ => LoadResult.success (AudioBuf.mk 10))
      (setSrc "a.opus" initPolyM)))

/-- Trace for C6: "b.opus" loads successfully (7s buffer), then load() is
called again and this second decode fails. -/
def c6AfterGoodLoad : PolyM :=
  loadFinish (fun _ => LoadResult.success (AudioBuf.mk 7))
    (setSrc "b.opus" initPolyM)

/-- The C6 trace after the failed re-load. -/
def c6AfterFailedReload : PolyM :=
  loadFinish envFail (loadElt c6AfterGoodLoad)

end WebAO

/-- C4 evaluated at the failing input: play() then pause() on a loaded
non-looping element.  pause() captures the live currentTime (3) and stops
the render node; stopping a started node makes the host dispatch its
ended event, whose handler — seeing loop=false — fires the "ended"
notification and resets currentTime to 0, although no end-of-buffer
completion occurred anywhere in the trace.  The "ended" notification is
therefore not restricted to actual end-of-buffer completion, and it
destroys the position pause() had just captured. -/
theorem C4_pause_fires_ended :
    c4AfterPause.e.currentTimeStored = 3 ∧
    c4AfterPause.e.paused = true ∧
    c4AfterPause.pendingEnded = [()] ∧
    c4AfterPause.notifs = [Notif.loadeddata, Notif.playEv, Notif.pauseEv] ∧
    (deliverEnded c4AfterPause).notifs
      = [Notif.loadeddata, Notif.playEv, Notif.pauseEv, Notif.endedEv] ∧
    (deliverEnded c4AfterPause).e.currentTimeStored = 0 := by
  refine ⟨?_, rfl, rfl, rfl, rfl, rfl⟩
  have hct : c4AfterPause.e.currentTimeStored
      = currentTimeGet 5 (playAfterWait 2
          (loadFinish (fun _ => LoadResult.success (AudioBuf.mk 10))
            (setSrc "a.opus" initPolyM))).e := rfl
  have hst : (playAfterWait 2
      (loadFinish (fun _ => LoadResult.success (AudioBuf.mk 10))
        (setSrc "a.opus" initPolyM))).e.startTime = 2 - 0 := rfl
  have hpa : (playAfterWait 2
      (loadFinish (fun _ => LoadResult.success (AudioBuf.mk 10))
        (setSrc "a.opus" initPolyM))).e.paused = false := rfl
  rw [hct]
  unfold currentTimeGet
  rw [hst, hpa]
  rw [if_pos ⟨rfl, by norm_num⟩]
  norm_num

/-- C6 counterexample: a handle whose re-triggered load (via load()) fails
while a previously decoded buffer is still installed.  The decode failure
leaves duration at 7 (not 0) and the stale buffer in place, and the
subsequent play() starts playback and fires "play" — no error
notification — contradicting the claim for this handle. -/
theorem C6_counterexample :
    c6AfterFailedReload.e.loadError = true ∧
    c6AfterFailedReload.e.duration = 7 ∧
    c6AfterFailedReload.e.audioBuffer = some (AudioBuf.mk 7) ∧
    (playAfterWait 0 c6AfterFailedReload).e.sourceNode
      = some (NodeState.playing false) ∧
    (playAfterWait 0 c6AfterFailedReload).notifs
      = [Notif.loadeddata, Notif.errorEv, Notif.playEv] := by
  decide

/-- C6 amended: when a load fails (zero frames decoded) on a handle that
holds no previously decoded buffer — the normal situation, since a source
assignment clears the buffer and zeroes duration before triggering the
load — the failure surfaces only as an "error" notification (loadFinish
absorbs it; nothing is thrown), duration stays 0, the handle is errored,
and every subsequent play() fires an "error" notification, starts no
playback, and leaves paused (and the whole element state) unchanged. -/
theorem C6_fresh_decode_failure (m : PolyM) (env : String → LoadResult)
    (url : String) (hi : m.e.inflight = some url)
    (he : env url = LoadResult.failure)
    (hb : m.e.audioBuffer = none) (hd : m.e.duration = 0) :
    (loadFinish env m).e.duration = 0 ∧
    (loadFinish env m).e.loadError = true ∧
    (loadFinish env m).e.audioBuffer = none ∧
    (loadFinish env m).e.paused = m.e.paused ∧
    (loadFinish env m).notifs = m.notifs ++ [Notif.errorEv] ∧
    ∀ now : ℚ,
      (playAfterWait now (loadFinish env m)).e = (loadFinish env m).e ∧
      (playAfterWait now (loadFinish env m)).notifs
        = (loadFinish env m).notifs ++ [Notif.errorEv] := by
  have h1 : loadFinish env m
      = { m with e := { m.e with isLoading := false, loadError := true,
                                 inflight := none },
                 notifs := m.notifs ++ [Notif.errorEv] } := by
    unfold loadFinish
    simp only [hi, he]
  rw [h1]
  refine ⟨by simp [hd], rfl, by simp [hb], rfl, rfl, ?_⟩
  intro now
  constructor
  · unfold playAfterWait
    simp [hb]
  · unfold playAfterWait
    simp [hb]

/-- Witness for C6_fresh_decode_failure: a fresh element whose source is
set to "x.opus" and whose decode then fails. -/
theorem C6_fresh_decode_failure_witness :
    (loadFinish envFail (setSrc "x.opus" initPolyM)).e.loadError = true :=
  (C6_fresh_decode_failure (setSrc "x.opus" initPolyM) envFail "x.opus"
    (by decide) (by decide) (by decide) (by decide)).2.1

/-- C7: the stored volume after any volume write, in any state, equals the
written value clamped into [0,1] — the value itself inside the interval,
0 below it, 1 above it — and it is in force immediately after the write. -/
theorem C7_volume_clamp (e : Poly) (v : ℚ) :
    (setVolume v e).volume = if v < 0 then 0 else if 1 < v then 1 else v := by
  unfold setVolume
  simp only
  split_ifs with h1 h2
  · rw [min_eq_right (by linarith : v ≤ (1:ℚ)), max_eq_left h1.le]
  · rw [min_eq_left h2.le, max_eq_right (by norm_num : (0:ℚ) ≤ 1)]
  · rw [min_eq_right (not_lt.1 h2), max_eq_right (not_lt.1 h1)]

/-- C9: while a load is in flight, a source reassignment (and a load()
call) starts no new decode — the in-flight url stays captured and
isLoading stays set — and when the in-flight load completes, the buffer
and duration installed are those decoded for the originally requested
url, even though the source attribute now names a different uri. -/
theorem C9_inflight_load_not_superseded (m : PolyM) (u1 u2 : String)
    (env : String → LoadResult) (b : AudioBuf)
    (hl : m.e.isLoading = true) (hi : m.e.inflight = some u1)
    (he : env u1 = LoadResult.success b) :
    (setSrc u2 m).e.isLoading = true ∧
    (setSrc u2 m).e.inflight = some u1 ∧
    (setSrc u2 m).e.src = u2 ∧
    loadElt (setSrc u2 m) = setSrc u2 m ∧
    (loadFinish env (setSrc u2 m)).e.audioBuffer = some b ∧
    (loadFinish env (setSrc u2 m)).e.duration = b.dur ∧
    (loadFinish env (setSrc u2 m)).e.src = u2 := by
  have hs : setSrc u2 m
      = { m with e := { m.e with src := u2, loadError := false,
                                 audioBuffer := none, duration := 0,
                                 currentTimeStored := 0 } } := by
    by_cases h : (u2 ≠ "" ∧ jsEndsWith u2 ".opus" = true)
    · simp [setSrc, loadBegin, h, hl]
    · simp [setSrc, loadBegin, h]
  have hfin : loadFinish env (setSrc u2 m)
      = { m with e := { m.e with src := u2, loadError := false,
                                 audioBuffer := some b, duration := b.dur,
                                 currentTimeStored := 0, isLoading := false,
                                 inflight := none },
                 notifs := m.notifs ++ [Notif.loadeddata] } := by
    rw [hs]
    unfold loadFinish
    simp only [hi, he]
  refine ⟨?_, ?_, ?_, ?_, ?_, ?_, ?_⟩
  · rw [hs]; exact hl
  · rw [hs]; exact hi
  · rw [hs]
  · rw [hs]
    by_cases h : u2 ≠ ""
    · simp [loadElt, loadBegin, h, hl]
    · simp [loadElt, loadBegin, h]
  · rw [hfin]
  · rw [hfin]
  · rw [hfin]

/-- Witness for C9_inflight_load_not_superseded: "u1.opus" is loading when
the source is reassigned to "u2.opus"; the completed load installs the
4-second buffer decoded for "u1.opus". -/
theorem C9_inflight_load_witness :
    (loadFinish envBuf4 (setSrc "u2.opus" (setSrc "u1.opus" initPolyM))).e.audioBuffer
      = some (AudioBuf.mk 4) :=
  (C9_inflight_load_not_superseded (setSrc "u1.opus" initPolyM) "u1.opus"
    "u2.opus" envBuf4 (AudioBuf.mk 4) (by decide) (by decide)
    (by decide)).2.2.2.2.1

/-- C10: assigning the source never changes paused, never stops or touches
an active render node (no stop is issued, no ended event is queued, the
start reference is kept, no notification fires), and resets exactly the
documented fields: duration and the stored currentTime to 0, the buffer
reference and the cached error state to empty — while volume and loop are
untouched and the source attribute takes the new value. -/
theorem C10_src_assignment_effect (m : PolyM) (v : String) :
    (setSrc v m).e.paused = m.e.paused ∧
    (setSrc v m).e.sourceNode = m.e.sourceNode ∧
    (setSrc v m).e.startTime = m.e.startTime ∧
    (setSrc v m).pendingEnded = m.pendingEnded ∧
    (setSrc v m).notifs = m.notifs ∧
    (setSrc v m).e.volume = m.e.volume ∧
    (setSrc v m).e.loop = m.e.loop ∧
    (setSrc v m).e.duration = 0 ∧
    (setSrc v m).e.currentTimeStored = 0 ∧
    (setSrc v m).e.audioBuffer = none ∧
    (setSrc v m).e.loadError = false ∧
    (setSrc v m).e.src = v := by
  by_cases h : (v ≠ "" ∧ jsEndsWith v ".opus" = true)
  · by_cases h2 : m.e.isLoading = true
    · simp [setSrc, loadBegin, h, h2]
    · simp [setSrc, loadBegin, h, h2]
  · simp [setSrc, loadBegin, h]
